import Mathlib

/-!
Verification of the audio-marker waveform pipeline.

Shallow embedding of the peak-extraction code (`src/lib/peaks.ts`, both the
ffmpeg raw-PCM variant and the audiowaveform extrema-pair variant), the
peaks HTTP route access check (`src/app/api/audio/[audioId]/peaks/route.ts`),
the upload flow (`src/app/api/upload/route.ts`), the CBR re-encode replacement
(`src/lib/audioReencode.ts`), and the service-worker request classification.

JavaScript numbers are modelled as exact rationals; the JavaScript value
`NaN` (which arises from reading past the end of an array, since an
out-of-bounds read yields `undefined` and `Math.abs(undefined)` is `NaN`)
is modelled as `none` in `Option ℚ`.
-/

namespace AudioMarker

/-- JavaScript `Math.round`: round half toward positive infinity,
i.e. `Math.round x = ⌊x + 1/2⌋`. -/
def jsRound (x : ℚ) : ℤ := ⌊x + 1/2⌋

/-- The 4-decimal quantization used by both peak extractors:
`Math.round(x * 10000) / 10000`. -/
def round4 (x : ℚ) : ℚ := (jsRound (x * 10000) : ℚ) / 10000

namespace Ffmpeg

/-- `PEAKS_PER_SECOND` constant of the ffmpeg raw-PCM variant. -/
def PEAKS_PER_SECOND : ℚ := 100

/-- Result shape of `generatePeaks` (the `PeaksData` interface). -/
structure PeaksData where
  peaks : List ℚ
  duration : ℚ
  sampleRate : ℚ
  length : ℕ
deriving DecidableEq

/-- The inner loop of the ffmpeg variant of `generatePeaks`:
`let max = 0; for (let j = start; j < stop; j++) { const abs = Math.abs(samples[j]); if (abs > max) max = abs; }`.
All reads the source performs are in bounds (`stop ≤ samples.length`), so the
`getD` default is never consulted on the source path. -/
def bucketMax (samples : List ℚ) (start stop : ℕ) : ℚ :=
  (List.range (stop - start)).foldl
    (fun m k =>
      let a := |samples.getD (start + k) 0|
      if m < a then a else m) 0

/-- The ffmpeg raw-PCM variant of `generatePeaks` from `src/lib/peaks.ts`,
given the probed `duration` and the decoded mono float samples. -/
def generatePeaks (duration : ℚ) (samples : List ℚ) : PeaksData :=
  let totalPeaks : ℕ := (⌈duration * PEAKS_PER_SECOND⌉).toNat
  let samplesPerPeak : ℕ := max 1 (samples.length / totalPeaks)
  let peaks : List ℚ := (List.range totalPeaks).map fun i =>
    let start := i * samplesPerPeak
    let stop := min (start + samplesPerPeak) samples.length
    round4 (bucketMax samples start stop)
  { peaks := peaks
    duration := duration
    sampleRate := PEAKS_PER_SECOND
    length := peaks.length }

end Ffmpeg

namespace Audiowaveform

/-- `PEAKS_PER_SECOND` constant of the audiowaveform variant. -/
def PEAKS_PER_SECOND : ℚ := 50

/-- Result shape of `generatePeaks` in the audiowaveform variant.  Peak
entries are JavaScript numbers that may be `NaN` (`none`). -/
structure PeaksData where
  peaks : List (Option ℚ)
  duration : ℚ
  sampleRate : ℚ
  length : ℕ
deriving DecidableEq

/-- The fields of the audiowaveform JSON output the extractor reads
(`sample_rate`, `length`, `data`).  `generateWaveformData` rejects an empty
`data` array, but parity of `data.length` is not checked. -/
structure AudiowaveformData where
  sample_rate : ℚ
  length : ℚ
  data : List ℚ
deriving DecidableEq

/-- `Math.abs` on a JavaScript number that may be `undefined`/`NaN`. -/
def jsAbs : Option ℚ → Option ℚ
  | some x => some |x|
  | none => none

/-- `Math.max` on JavaScript numbers: any `NaN` argument makes the result `NaN`. -/
def jsMax : Option ℚ → Option ℚ → Option ℚ
  | some a, some b => some (max a b)
  | _, _ => none

/-- Division by the 8-bit scale 128; `NaN` propagates. -/
def jsDiv128 : Option ℚ → Option ℚ
  | some x => some (x / 128)
  | none => none

/-- `Math.round(x * 10000) / 10000` on a JavaScript number; `NaN` propagates. -/
def jsRound4 : Option ℚ → Option ℚ
  | some x => some (round4 x)
  | none => none

/-- The audiowaveform variant of `generatePeaks` from `src/lib/peaks.ts`.
The loop `for (let i = 0; i < data.length; i += 2)` visits
`i = 0, 2, ..`, i.e. `⌈data.length / 2⌉` iterations; each iteration reads
`data[i]` and `data[i+1]` (the latter is `undefined` past the end). -/
def generatePeaks (w : AudiowaveformData) : PeaksData :=
  let n := w.data.length
  let peaks : List (Option ℚ) := (List.range ((n + 1) / 2)).map fun k =>
    let i := 2 * k
    let mn := jsAbs w.data[i]?
    let mx := jsAbs w.data[i + 1]?
    let peak := jsMax mn mx
    jsRound4 (jsDiv128 peak)
  { peaks := peaks
    duration := w.length / w.sample_rate
    sampleRate := PEAKS_PER_SECOND
    length := peaks.length }

end Audiowaveform

/-- One step of the bucket scan loop:
`if (abs > max) max = abs` with `abs = f j`. -/
def scanStep (f : ℕ → ℚ) (m : ℚ) (j : ℕ) : ℚ := if m < f j then f j else m

/-- `M` is the maximum absolute sample value over the index window `[a, b)`
of `samples`, an empty window yielding `0`: `M` bounds every window entry
and is attained (or the window is empty and `M = 0`). -/
def IsMaxAbsOver (samples : List ℚ) (a b : ℕ) (M : ℚ) : Prop :=
  (∀ j, a ≤ j → j < b → |samples.getD j 0| ≤ M) ∧
  ((b ≤ a ∧ M = 0) ∨ ∃ j, a ≤ j ∧ j < b ∧ M = |samples.getD j 0|)

/-! ### Peaks route access check
`src/app/api/audio/[audioId]/peaks/route.ts`, lines 32-42. -/

/-- Outcome of the access-permission block of the peaks `GET` handler.
`granted` means the handler proceeds past the permission checks (towards a
`200`, `404` or `500` depending on the file system). -/
inductive PeaksAccess where
  | unauthorized
  | forbidden
  | granted
deriving DecidableEq

/-- The access-permission block of the peaks route.  The session is modelled
as `Option (Option String)`: `none` is a missing session, `some u` a session
whose `user?.id` chain evaluates to `u`.
Source:
`const isCreator = session?.user?.id === audio.createdById;`
`const hasAccess = audio.isPublic || isCreator;`
`if (env.REQUIRE_AUTH_FOR_PUBLIC_CONTENT && !session) return 401;`
`if (!hasAccess) return 403;` -/
def peaksAccessCheck (requireAuthForPublicContent : Bool)
    (session : Option (Option String)) (isPublic : Bool) (createdById : String) :
    PeaksAccess :=
  let sessionUserId : Option String := session.bind fun u => u
  let isCreator : Bool := decide (sessionUserId = some createdById)
  let hasAccess : Bool := isPublic || isCreator
  if requireAuthForPublicContent && session.isNone then .unauthorized
  else if !hasAccess then .forbidden
  else .granted

/-- HTTP status produced by a non-granted access outcome (`none` = the
handler continues, so the permission block produced no response). -/
def accessHttpStatus : PeaksAccess → Option ℕ
  | .unauthorized => some 401
  | .forbidden => some 403
  | .granted => none

/-! ### Upload flow
`src/app/api/upload/route.ts`.  The `fs`, subprocess and database effects are
modelled by oracle parameters saying whether each step throws. -/

/-- `file` form field: the properties the handler reads. -/
structure UploadFile where
  name : String
  size : ℕ
deriving DecidableEq

/-- The inputs the `POST /api/upload` handler branches on.  A form field that
is absent is `none`; `sessionUserId` is the evaluation of
`session?.user?.id`. -/
structure UploadRequest where
  sessionUserId : Option String
  name : Option String
  file : Option UploadFile
deriving DecidableEq

/-- Response of the upload handler: either a JSON error with a status, or
the success body `{success: true, id}` (HTTP 200). -/
inductive UploadOutcome where
  | errorResp (status : ℕ) (msg : String)
  | successResp (id : String)
deriving DecidableEq

/-- Lower-casing a JavaScript string (ASCII component of `toLowerCase`). -/
def lowerStr (s : String) : String := ⟨s.data.map Char.toLower⟩

/-- Splits a character list at the last occurrence of `sep`:
returns `(front, base)` with `l = front ++ base`, where `base` contains no
`sep` and `front` is empty or ends with `sep`. -/
def lastSegSplit (sep : Char) (l : List Char) : List Char × List Char :=
  ((l.reverse.dropWhile (· ≠ sep)).reverse, (l.reverse.takeWhile (· ≠ sep)).reverse)

/-- Splits a base filename into `(name, ext)` following node `path.parse`:
`ext` starts at the last dot, unless there is no dot or the only dot is the
leading character (hidden file), in which case `ext` is empty.
Always `name ++ ext = base`. -/
def extSplit (base : List Char) : List Char × List Char :=
  if (base.reverse.dropWhile (· ≠ '.')).reverse = [] then (base, [])
  else if (base.reverse.dropWhile (· ≠ '.')).reverse = ['.'] then (base, [])
  else ((base.reverse.dropWhile (· ≠ '.')).reverse.dropLast,
    '.' :: (base.reverse.takeWhile (· ≠ '.')).reverse)

/-- node `path.extname`. -/
def extname (s : String) : String := ⟨(extSplit (lastSegSplit '/' s.data).2).2⟩

/-- 50 MB upload size limit. -/
def MAX_UPLOAD_SIZE : ℕ := 50 * 1024 * 1024

/-- The validation chain of the upload handler, in source order:
authentication, presence of `name` and `file` (JavaScript falsiness: a
missing field or empty string fails), 50 MB size limit, `.mp3` extension.
`none` means all checks passed. -/
def validateUpload (req : UploadRequest) : Option UploadOutcome :=
  let authOk : Bool := match req.sessionUserId with
    | some uid => !(uid = "")
    | none => false
  if !authOk then some (.errorResp 401 "Unauthorized")
  else
    match req.name, req.file with
    | some nm, some f =>
      if nm = "" then some (.errorResp 400 "Name and file are required")
      else if MAX_UPLOAD_SIZE < f.size then
        some (.errorResp 400 "File size must be less than 50MB")
      else if !(lowerStr (extname f.name) = ".mp3") then
        some (.errorResp 400 "Only .mp3 files are allowed")
      else none
    | _, _ => some (.errorResp 400 "Name and file are required")

/-- The upload handler after parsing.  `reencodeThrows` and `peaksThrows`
say whether `replaceWithCbrMp3` resp. `generateAndSavePeaks` reject; both are
wrapped in `try/catch` blocks whose handlers only append a console warning.
`dbThrows` says whether `db.audio.create` rejects (caught by the outer
handler as a 500).  `newId` is the generated uuid.  Returns
(response, whether the database record was created, logged warnings). -/
def uploadPOST (req : UploadRequest) (reencodeThrows peaksThrows dbThrows : Bool)
    (newId : String) : UploadOutcome × Bool × List String :=
  match validateUpload req with
  | some e => (e, false, [])
  | none =>
    let warnings :=
      (if reencodeThrows then ["CBR re-encode failed (non-fatal)"] else []) ++
      (if peaksThrows then ["Peak generation failed (non-fatal)"] else [])
    if dbThrows then (.errorResp 500 "Upload failed", false, warnings)
    else (.successResp newId, true, warnings)

/-! ### CBR re-encode replacement
`src/lib/audioReencode.ts`.  The filesystem is a map from paths to file
contents; each `fs/promises` call (and the ffmpeg invocation) is one step. -/

/-- File contents. -/
abbrev Bytes := List ℕ

/-- Filesystem state. -/
abbrev FS := String → Option Bytes

/-- Pointwise filesystem update. -/
def fsSet (fs : FS) (p : String) (v : Option Bytes) : FS :=
  fun q => if q = p then v else fs q

/-- The observable step trace of `replaceWithCbrMp3`. -/
inductive FileOp where
  | reencode (input output : String)
  | unlink (p : String)
  | readF (p : String)
  | writeF (p : String)
deriving DecidableEq

/-- The sibling temporary path used by `replaceWithCbrMp3`:
`path.join(parsed.dir, parsed.name + "-cbr" + parsed.ext)`. -/
def tempPathOf (p : String) : String :=
  ⟨(lastSegSplit '/' p.data).1 ++ (extSplit (lastSegSplit '/' p.data).2).1 ++
    "-cbr".data ++ (extSplit (lastSegSplit '/' p.data).2).2⟩

/-- `replaceWithCbrMp3` from `src/lib/audioReencode.ts`.  `encodeResult` is
the outcome of the `reencodeMp3ToCbr` ffmpeg invocation: `some b` resolves
after writing the encoded bytes `b` to the temporary path, `none` rejects
(`ffmpeg re-encode failed`) before any `fs/promises` call is made.
Afterwards: `await unlink(filePath); await writeFile(filePath, await
readFile(tempPath)); await unlink(tempPath)`.
Returns (outcome, final filesystem, step trace). -/
def replaceWithCbrMp3 (fs : FS) (filePath : String) (encodeResult : Option Bytes) :
    Except String Unit × FS × List FileOp :=
  match encodeResult with
  | none => (.error "ffmpeg re-encode failed", fs,
      [.reencode filePath (tempPathOf filePath)])
  | some b =>
    match fsSet (fsSet fs (tempPathOf filePath) (some b)) filePath none
        (tempPathOf filePath) with
    | none => (.error "ENOENT",
        fsSet (fsSet fs (tempPathOf filePath) (some b)) filePath none,
        [.reencode filePath (tempPathOf filePath), .unlink filePath,
         .readF (tempPathOf filePath)])
    | some tb =>
      (.ok (),
        fsSet (fsSet (fsSet (fsSet fs (tempPathOf filePath) (some b))
          filePath none) filePath (some tb)) (tempPathOf filePath) none,
        [.reencode filePath (tempPathOf filePath), .unlink filePath,
         .readF (tempPathOf filePath), .writeF filePath,
         .unlink (tempPathOf filePath)])

/-! ### Service worker request classification
`public/sw.js` (the service worker source): the `fetch` listener and its
helper classifiers, plus which cache partition each strategy may write. -/

/-- Does `l` start with `p`? (JavaScript `String.startsWith`.) -/
def hasFront : List Char → List Char → Bool
  | _, [] => true
  | [], _ :: _ => false
  | c :: l, p :: ps => decide (c = p) && hasFront l ps

/-- Drop `p` from the front of `l` if it is there. -/
def chopFront : List Char → List Char → Option (List Char)
  | l, [] => some l
  | [], _ :: _ => none
  | c :: l, p :: ps => if c = p then chopFront l ps else none

/-- Drop `suf` from the back of `l` if it is there. -/
def chopBack (l suf : List Char) : Option (List Char) :=
  (chopFront l.reverse suf.reverse).map List.reverse

/-- Does `l` end with `suf`? (JavaScript `String.endsWith`.) -/
def endsWithL (l suf : List Char) : Bool := hasFront l.reverse suf.reverse

/-- Does `l` contain `needle` as a contiguous substring?
(JavaScript `String.includes`.) -/
def hasSub (l needle : List Char) : Bool :=
  match l with
  | [] => needle.isEmpty
  | _ :: t => hasFront l needle || hasSub t needle

/-- The regular expression `AUDIO_API_REGEX = /^\/api\/audio\/[^\/]+\/file$/`:
the path is `/api/audio/` ++ seg ++ `/file` for a nonempty slash-free seg. -/
def matchesAudioApi (l : List Char) : Bool :=
  match chopFront l "/api/audio/".data with
  | none => false
  | some rest =>
    match chopBack rest "/file".data with
    | none => false
    | some seg => !seg.isEmpty && seg.all (fun c => decide (c ≠ '/'))

/-- The request properties the service worker inspects. -/
structure SWRequest where
  method : String
  protocol : String
  pathname : String
  accept : Option String
deriving DecidableEq

/-- `audioExtensions` from `isAudioRequest`. -/
def AUDIO_EXTENSIONS : List String :=
  [".mp3", ".wav", ".ogg", ".m4a", ".aac", ".flac", ".webm"]

/-- `staticExtensions` from `isStaticAsset`. -/
def STATIC_EXTENSIONS : List String :=
  [".css", ".js", ".png", ".jpg", ".jpeg", ".svg", ".ico", ".woff", ".woff2", ".ttf"]

/-- `isAudioRequest`: audio API path pattern, audio file extension (on the
lower-cased pathname), or an accept header containing `audio/`. -/
def isAudioRequest (r : SWRequest) : Bool :=
  let pathname := r.pathname.data.map Char.toLower
  matchesAudioApi pathname
  || AUDIO_EXTENSIONS.any (fun e => endsWithL pathname e.data)
  || (match r.accept with
      | some ct => hasSub ct.data "audio/".data
      | none => false)

/-- `isStaticAsset`: static file extension on the lower-cased pathname. -/
def isStaticAsset (r : SWRequest) : Bool :=
  STATIC_EXTENSIONS.any (fun e => endsWithL (r.pathname.data.map Char.toLower) e.data)

/-- `isAuthRequest`: pathname starts with `/api/auth/`. -/
def isAuthRequest (r : SWRequest) : Bool :=
  hasFront r.pathname.data "/api/auth/".data

/-- `isApiRequest`: an `/api/` path that is neither the audio file API nor
an auth path. -/
def isApiRequest (r : SWRequest) : Bool :=
  if matchesAudioApi r.pathname.data then false
  else if hasFront r.pathname.data "/api/auth/".data then false
  else hasFront r.pathname.data "/api/".data

/-- What the `fetch` listener does with a request. `passThrough` is the
early `return` without `respondWith` (browser default handling);
`plainFetch` is the development-mode `respondWith(fetch(request))`;
`authNetworkOnly` is the auth branch `respondWith(fetch(request))`. -/
inductive Strategy where
  | passThrough
  | plainFetch
  | audioCacheFirst
  | staticCacheFirst
  | authNetworkOnly
  | apiNetworkFirst
  | defaultNetworkFirst
deriving DecidableEq

/-- The branch order of the `fetch` listener: non-GET and non-http(s) bail
out first, then the development-mode bypass, then audio, static, auth, API,
default - in exactly the source order. -/
def classify (isProd : Bool) (r : SWRequest) : Strategy :=
  if !(r.method = "GET") then .passThrough
  else if !(hasFront r.protocol.data "http".data) then .passThrough
  else if !isProd then .plainFetch
  else if isAudioRequest r then .audioCacheFirst
  else if isStaticAsset r then .staticCacheFirst
  else if isAuthRequest r then .authNetworkOnly
  else if isApiRequest r then .apiNetworkFirst
  else .defaultNetworkFirst

def CACHE_NAME : String := "audio-marker-v1"
def AUDIO_CACHE_NAME : String := "audio-marker-audio-v1"
def STATIC_CACHE_NAME : String := "audio-marker-static-v1"

/-- Which cache partitions a strategy writes, given whether the cache lookup
hit and the network outcome (`none` = fetch rejected).  Mirrors the
`cache.put` calls of each `respondWith` body: the cache-first branches store
only on a miss followed by a status-200 response; the network-first branches
store every status-200 response; the pass-through, development and auth
branches never store. -/
def cacheWrites (s : Strategy) (cacheHit : Bool) (netStatus : Option ℕ) : List String :=
  match s with
  | .audioCacheFirst =>
    if cacheHit then [] else match netStatus with
      | some 200 => [AUDIO_CACHE_NAME]
      | _ => []
  | .staticCacheFirst =>
    if cacheHit then [] else match netStatus with
      | some 200 => [STATIC_CACHE_NAME]
      | _ => []
  | .apiNetworkFirst =>
    (match netStatus with
      | some 200 => [CACHE_NAME]
      | _ => [])
  | .defaultNetworkFirst =>
    (match netStatus with
      | some 200 => [CACHE_NAME]
      | _ => [])
  | _ => []

/-! ## Lemmas about the bucket scan loop -/

lemma le_foldl_scanStep (f : ℕ → ℚ) (js : List ℕ) (m : ℚ) :
    m ≤ js.foldl (scanStep f) m := by
  induction js generalizing m with
  | nil => exact le_refl m
  | cons j t ih =>
    refine le_trans ?_ (ih (scanStep f m j))
    unfold scanStep
    split
    · exact le_of_lt ‹_›
    · exact le_refl m

lemma foldl_scanStep_mem (f : ℕ → ℚ) (js : List ℕ) (m : ℚ) :
    ∀ j ∈ js, f j ≤ js.foldl (scanStep f) m := by
  induction js generalizing m with
  | nil => intro j hj; simp at hj
  | cons x t ih =>
    intro j hj
    rcases List.mem_cons.1 hj with rfl | hj
    · refine le_trans ?_ (le_foldl_scanStep f t (scanStep f m j))
      unfold scanStep
      split
      · exact le_refl _
      · exact le_of_not_lt ‹_›
    · exact ih (scanStep f m x) j hj

lemma foldl_scanStep_cases (f : ℕ → ℚ) (js : List ℕ) (m : ℚ) :
    js.foldl (scanStep f) m = m ∨ ∃ j ∈ js, js.foldl (scanStep f) m = f j := by
  induction js generalizing m with
  | nil => exact Or.inl rfl
  | cons x t ih =>
    have hstep : scanStep f m x = f x ∨ scanStep f m x = m := by
      unfold scanStep
      split
      · exact Or.inl rfl
      · exact Or.inr rfl
    have hfold : List.foldl (scanStep f) m (x :: t) =
        List.foldl (scanStep f) (scanStep f m x) t := rfl
    rcases ih (scanStep f m x) with h | ⟨j, hj, h⟩
    · rcases hstep with h2 | h2
      · exact Or.inr ⟨x, List.mem_cons_self x t, by rw [hfold, h, h2]⟩
      · exact Or.inl (by rw [hfold, h, h2])
    · exact Or.inr ⟨j, List.mem_cons_of_mem x hj, by rw [hfold, h]⟩

lemma bucketMax_foldl (samples : List ℚ) (a b : ℕ) :
    Ffmpeg.bucketMax samples a b =
      ((List.range (b - a)).map (a + ·)).foldl
        (scanStep fun j => |samples.getD j 0|) 0 := by
  simp only [Ffmpeg.bucketMax, List.foldl_map, scanStep]

lemma mem_window_iff (a b j : ℕ) :
    j ∈ (List.range (b - a)).map (a + ·) ↔ a ≤ j ∧ j < b := by
  simp only [List.mem_map, List.mem_range]
  constructor
  · rintro ⟨k, hk, rfl⟩
    omega
  · rintro ⟨h1, h2⟩
    exact ⟨j - a, by omega, by omega⟩

lemma bucketMax_isMaxAbsOver (samples : List ℚ) (a b : ℕ) :
    IsMaxAbsOver samples a b (Ffmpeg.bucketMax samples a b) := by
  constructor
  · intro j h1 h2
    rw [bucketMax_foldl]
    exact foldl_scanStep_mem _ _ _ j ((mem_window_iff a b j).2 ⟨h1, h2⟩)
  · rw [bucketMax_foldl]
    rcases foldl_scanStep_cases (fun j => |samples.getD j 0|)
        ((List.range (b - a)).map (a + ·)) 0 with h | ⟨j, hj, h⟩
    · by_cases hab : b ≤ a
      · exact Or.inl ⟨hab, h⟩
      · refine Or.inr ⟨a, le_refl a, by omega, ?_⟩
        have hub := foldl_scanStep_mem (fun j => |samples.getD j 0|)
          ((List.range (b - a)).map (a + ·)) 0 a
          ((mem_window_iff a b a).2 ⟨le_refl a, by omega⟩)
        rw [h] at hub
        rw [h]
        exact (le_antisymm hub (abs_nonneg _)).symm
    · obtain ⟨h1, h2⟩ := (mem_window_iff a b j).1 hj
      exact Or.inr ⟨j, h1, h2, h⟩

lemma bucketMax_nonneg (samples : List ℚ) (a b : ℕ) :
    0 ≤ Ffmpeg.bucketMax samples a b := by
  rw [bucketMax_foldl]
  exact le_foldl_scanStep _ _ 0

lemma bucketMax_le_one (samples : List ℚ) (hs : ∀ s ∈ samples, |s| ≤ 1)
    (a b : ℕ) : Ffmpeg.bucketMax samples a b ≤ 1 := by
  rcases (bucketMax_isMaxAbsOver samples a b).2 with ⟨_, hM⟩ | ⟨j, _, _, hM⟩
  · rw [hM]
    norm_num
  · rw [hM]
    by_cases hlt : j < samples.length
    · rw [List.getD_eq_getElem _ _ hlt]
      exact hs _ (List.getElem_mem hlt)
    · rw [List.getD_eq_default _ _ (by omega)]
      norm_num

/-! ## Lemmas about the 4-decimal quantization -/

lemma round4_nonneg {x : ℚ} (h : 0 ≤ x) : 0 ≤ round4 x := by
  unfold round4 jsRound
  have h0 : (0 : ℤ) ≤ ⌊x * 10000 + 1 / 2⌋ := by
    rw [Int.le_floor]
    push_cast
    nlinarith
  have h0q : (0 : ℚ) ≤ (⌊x * 10000 + 1 / 2⌋ : ℚ) := by exact_mod_cast h0
  exact div_nonneg h0q (by norm_num)

lemma round4_le_one {x : ℚ} (h : x ≤ 1) : round4 x ≤ 1 := by
  unfold round4 jsRound
  have hfl : ⌊x * 10000 + 1 / 2⌋ ≤ 10000 := by
    have hle : x * 10000 + 1 / 2 ≤ 10000 + 1 / 2 := by nlinarith
    calc ⌊x * 10000 + 1 / 2⌋ ≤ ⌊(10000 : ℚ) + 1 / 2⌋ := Int.floor_le_floor hle
    _ = 10000 := by norm_num
  rw [div_le_one (by norm_num)]
  exact_mod_cast hfl

lemma round4_multiple (x : ℚ) : ∃ k : ℤ, round4 x = (k : ℚ) / 10000 :=
  ⟨jsRound (x * 10000), rfl⟩

lemma round4_zero : round4 0 = 0 := by
  unfold round4 jsRound
  norm_num

lemma ffmpeg_peaks_length (d : ℚ) (samples : List ℚ) :
    (Ffmpeg.generatePeaks d samples).peaks.length =
      (⌈d * Ffmpeg.PEAKS_PER_SECOND⌉).toNat := by
  simp [Ffmpeg.generatePeaks]

/-! ## Claim theorems -/

/-- Claim C1, counterexample to the claim as stated: for duration 1/100 and
the single sample 1/3, bucket 0 has window `[0, 1)` whose maximum absolute
sample value is 1/3, but the emitted entry is the 4-decimal rounding
3333/10000, which differs from 1/3.  The claim omits the rounding step. -/
theorem ffmpeg_peaks_unrounded_ce :
    IsMaxAbsOver [(1 : ℚ)/3] 0 1 (1/3) ∧
    (Ffmpeg.generatePeaks (1/100) [(1 : ℚ)/3]).peaks = [3333/10000] ∧
    ((3333 : ℚ)/10000) < 1/3 := by
  refine ⟨⟨?_, ?_⟩, ?_, by norm_num⟩
  · intro j h1 h2
    have hj : j = 0 := by omega
    subst hj
    norm_num [List.getD, abs_of_nonneg]
  · refine Or.inr ⟨0, le_refl 0, one_pos, ?_⟩
    norm_num [List.getD, abs_of_nonneg]
  · norm_num [Ffmpeg.generatePeaks, Ffmpeg.bucketMax, Ffmpeg.PEAKS_PER_SECOND,
      round4, jsRound, List.range_succ, abs_of_nonneg]

/-- Claim C1 (amended): for every positive duration `d`, the ffmpeg variant
produces exactly `⌈d * 100⌉` entries (a positive count); entry `i` is the
4-decimal rounding of the maximum absolute sample value over the window
`[i*spp, min(i*spp + spp, n))` with `spp = max 1 (n / ⌈d * 100⌉)`, an empty
window yielding 0; and with zero samples the result is `⌈d * 100⌉`
zero-valued buckets rather than a failure. -/
theorem ffmpeg_peaks_shape (d : ℚ) (hd : 0 < d) (samples : List ℚ) :
    0 < (⌈d * Ffmpeg.PEAKS_PER_SECOND⌉).toNat ∧
    (Ffmpeg.generatePeaks d samples).peaks.length =
      (⌈d * Ffmpeg.PEAKS_PER_SECOND⌉).toNat ∧
    (∀ i, i < (⌈d * Ffmpeg.PEAKS_PER_SECOND⌉).toNat →
      ∃ M, IsMaxAbsOver samples
          (i * max 1 (samples.length / (⌈d * Ffmpeg.PEAKS_PER_SECOND⌉).toNat))
          (min (i * max 1 (samples.length / (⌈d * Ffmpeg.PEAKS_PER_SECOND⌉).toNat) +
              max 1 (samples.length / (⌈d * Ffmpeg.PEAKS_PER_SECOND⌉).toNat))
            samples.length) M ∧
        (Ffmpeg.generatePeaks d samples).peaks.getD i 0 = round4 M) ∧
    (samples = [] →
      (Ffmpeg.generatePeaks d samples).peaks =
        List.replicate (⌈d * Ffmpeg.PEAKS_PER_SECOND⌉).toNat 0) := by
  have hq : (0 : ℚ) < d * Ffmpeg.PEAKS_PER_SECOND := by
    have : (0 : ℚ) < Ffmpeg.PEAKS_PER_SECOND := by norm_num [Ffmpeg.PEAKS_PER_SECOND]
    exact mul_pos hd this
  have hpos : 0 < (⌈d * Ffmpeg.PEAKS_PER_SECOND⌉).toNat := by
    have h1 : (0 : ℤ) < ⌈d * Ffmpeg.PEAKS_PER_SECOND⌉ := Int.ceil_pos.2 hq
    omega
  refine ⟨hpos, ffmpeg_peaks_length d samples, ?_, ?_⟩
  · intro i hi
    refine ⟨Ffmpeg.bucketMax samples
        (i * max 1 (samples.length / (⌈d * Ffmpeg.PEAKS_PER_SECOND⌉).toNat))
        (min (i * max 1 (samples.length / (⌈d * Ffmpeg.PEAKS_PER_SECOND⌉).toNat) +
            max 1 (samples.length / (⌈d * Ffmpeg.PEAKS_PER_SECOND⌉).toNat))
          samples.length),
      bucketMax_isMaxAbsOver _ _ _, ?_⟩
    have hlen : i < (Ffmpeg.generatePeaks d samples).peaks.length := by
      rw [ffmpeg_peaks_length]
      exact hi
    rw [List.getD_eq_getElem _ _ hlen]
    show ((List.range _).map _)[i] = _
    rw [List.getElem_map]
    simp only [List.getElem_range]
  · intro h
    subst h
    refine List.eq_replicate_iff.2 ⟨ffmpeg_peaks_length d [], ?_⟩
    intro b hb
    simp only [Ffmpeg.generatePeaks, List.mem_map, List.mem_range] at hb
    obtain ⟨i, _, rfl⟩ := hb
    simp only [List.length_nil, Nat.min_zero]
    rw [show Ffmpeg.bucketMax [] _ 0 = 0 from by simp [Ffmpeg.bucketMax, Nat.zero_sub]]
    exact round4_zero

/-- Claim C1 witness: the amended theorem applied at duration 1/100 and one
sample yields exactly one bucket. -/
theorem ffmpeg_peaks_shape_witness :
    (Ffmpeg.generatePeaks (1/100) [(1 : ℚ)/3]).peaks.length = 1 := by
  have h := ffmpeg_peaks_shape (1/100) (by norm_num) [(1 : ℚ)/3]
  rw [h.2.1]
  norm_num [Ffmpeg.PEAKS_PER_SECOND]

/-- Claim C2, counterexample to the claim as stated: a raw-PCM sample of
amplitude 2 (float PCM is not clamped to [-1, 1]) produces the peak value 2,
outside [0, 1]; and in the extrema-pair path an odd-length data array of
in-range 8-bit values produces a final `NaN` entry, which is not in [0, 1]
either. -/
theorem peaks_unit_range_ce :
    ((Ffmpeg.generatePeaks (1/100) [(2 : ℚ)]).peaks = [2] ∧ (1 : ℚ) < 2) ∧
    (Audiowaveform.generatePeaks ⟨50, 5, [0, 0, 0, 0, 0]⟩).peaks.getD 2 (some 0) =
      none := by
  refine ⟨⟨?_, by norm_num⟩, ?_⟩
  · norm_num [Ffmpeg.generatePeaks, Ffmpeg.bucketMax, Ffmpeg.PEAKS_PER_SECOND,
      round4, jsRound, List.range_succ, abs_of_nonneg]
  · norm_num [Audiowaveform.generatePeaks, Audiowaveform.jsAbs,
      Audiowaveform.jsMax, Audiowaveform.jsDiv128, Audiowaveform.jsRound4,
      round4, jsRound, List.range_succ, List.getD, abs_of_nonneg]

/-- Claim C2 (amended): every peak value lies in [0, 1] after rounding, for
both decode strategies, provided the raw-PCM samples lie in [-1, 1] (as
decoded float PCM does) and, in the extrema-pair path, the data array has
even length with values in the signed 8-bit range [-128, 127]. -/
theorem peaks_unit_range (d : ℚ) (samples : List ℚ)
    (hs : ∀ s ∈ samples, |s| ≤ 1)
    (w : Audiowaveform.AudiowaveformData) (heven : w.data.length % 2 = 0)
    (hw : ∀ v ∈ w.data, -128 ≤ v ∧ v ≤ 127) :
    (∀ x ∈ (Ffmpeg.generatePeaks d samples).peaks, 0 ≤ x ∧ x ≤ 1) ∧
    (∀ e ∈ (Audiowaveform.generatePeaks w).peaks,
      ∃ q, e = some q ∧ 0 ≤ q ∧ q ≤ 1) := by
  constructor
  · intro x hx
    simp only [Ffmpeg.generatePeaks, List.mem_map, List.mem_range] at hx
    obtain ⟨i, _, rfl⟩ := hx
    exact ⟨round4_nonneg (bucketMax_nonneg samples _ _),
      round4_le_one (bucketMax_le_one samples hs _ _)⟩
  · intro e he
    simp only [Audiowaveform.generatePeaks, List.mem_map, List.mem_range] at he
    obtain ⟨k, hk, rfl⟩ := he
    have h2k1 : 2 * k + 1 < w.data.length := by omega
    have h2k : 2 * k < w.data.length := by omega
    rw [List.getElem?_eq_getElem h2k, List.getElem?_eq_getElem h2k1]
    have hb1 : |w.data[2 * k]| ≤ 128 := by
      have h := hw _ (List.getElem_mem h2k)
      rw [abs_le]
      constructor <;> linarith [h.1, h.2]
    have hb2 : |w.data[2 * k + 1]| ≤ 128 := by
      have h := hw _ (List.getElem_mem h2k1)
      rw [abs_le]
      constructor <;> linarith [h.1, h.2]
    refine ⟨round4 (max |w.data[2 * k]| |w.data[2 * k + 1]| / 128), rfl,
      round4_nonneg ?_, round4_le_one ?_⟩
    · have : (0 : ℚ) ≤ max |w.data[2 * k]| |w.data[2 * k + 1]| :=
        le_trans (abs_nonneg _) (le_max_left _ _)
      positivity
    · rw [div_le_one (by norm_num)]
      exact max_le (by linarith) (by linarith)

/-- Claim C2 witness: the amended theorem applied to one in-range sample
gives a peak in [0, 1]. -/
theorem peaks_unit_range_witness :
    0 ≤ (Ffmpeg.generatePeaks (1/100) [(1 : ℚ)/2]).peaks.getD 0 0 ∧
    (Ffmpeg.generatePeaks (1/100) [(1 : ℚ)/2]).peaks.getD 0 0 ≤ 1 := by
  have h := (peaks_unit_range (1/100) [(1 : ℚ)/2]
    (by intro s hsm; simp at hsm; subst hsm; norm_num [abs_le])
    ⟨50, 1, [(-128 : ℚ), 127]⟩ (by norm_num)
    (by intro v hv; simp at hv; rcases hv with rfl | rfl <;> norm_num)).1
  have hlen : 0 < (Ffmpeg.generatePeaks (1/100) [(1 : ℚ)/2]).peaks.length := by
    rw [ffmpeg_peaks_length]
    norm_num [Ffmpeg.PEAKS_PER_SECOND]
  rw [List.getD_eq_getElem _ _ hlen]
  exact h _ (List.getElem_mem hlen)

/-- Claim C3: the code read past the bounds.  Evaluating the extrema-pair
extractor on an odd-length (5-element) data array: the loop runs for
`i = 0, 2, 4`, the read of `data[5]` yields `undefined`, and the peaks array
has 3 entries whose last is `NaN` - not the 2 entries of complete pairs the
spec demands. -/
theorem extrema_odd_length_eval :
    (Audiowaveform.generatePeaks ⟨50, 5, [0, 0, 0, 0, 127]⟩).peaks.length = 3 ∧
    (Audiowaveform.generatePeaks ⟨50, 5, [0, 0, 0, 0, 127]⟩).peaks.getD 2 (some 0) =
      none := by
  constructor
  · norm_num [Audiowaveform.generatePeaks]
  · norm_num [Audiowaveform.generatePeaks, Audiowaveform.jsAbs,
      Audiowaveform.jsMax, Audiowaveform.jsDiv128, Audiowaveform.jsRound4,
      round4, jsRound, List.range_succ, List.getD, abs_of_nonneg]

/-- Claim C4: both variants of `generatePeaks` return a record whose
`length` field equals the cardinality of its `peaks` array, for every
input - the field is assigned `peaks.length` at construction. -/
theorem peaksData_length_invariant (d : ℚ) (samples : List ℚ)
    (w : Audiowaveform.AudiowaveformData) :
    (Ffmpeg.generatePeaks d samples).length =
      (Ffmpeg.generatePeaks d samples).peaks.length ∧
    (Audiowaveform.generatePeaks w).length =
      (Audiowaveform.generatePeaks w).peaks.length :=
  ⟨rfl, rfl⟩

/-- Claim C10, counterexample to the claim as stated: on an odd-length
extrema data array, the final peaks entry is the JavaScript `NaN` (modelled
`none`), which is not an integer multiple of 1/10000 - it is not a number
at all (it serializes as `null`). -/
theorem peaks_quantized_ce :
    (Audiowaveform.generatePeaks ⟨50, 5, [1, 2, 3, 4, 5]⟩).peaks.length = 3 ∧
    (Audiowaveform.generatePeaks ⟨50, 5, [1, 2, 3, 4, 5]⟩).peaks.getD 2 (some 0) =
      none := by
  constructor
  · norm_num [Audiowaveform.generatePeaks]
  · norm_num [Audiowaveform.generatePeaks, Audiowaveform.jsAbs,
      Audiowaveform.jsMax, Audiowaveform.jsDiv128, Audiowaveform.jsRound4,
      round4, jsRound, List.range_succ, List.getD, abs_of_nonneg]

/-- Claim C10 (amended): in exact arithmetic, every numeric element of the
peaks array is an integer multiple of 1/10000, being computed as
`round(x * 10000) / 10000`; the only non-numeric elements are the `NaN`
produced by the odd-length out-of-bounds read in the extrema path. -/
theorem peaks_quantized (d : ℚ) (samples : List ℚ)
    (w : Audiowaveform.AudiowaveformData) :
    (∀ x ∈ (Ffmpeg.generatePeaks d samples).peaks, ∃ k : ℤ, x = (k : ℚ) / 10000) ∧
    (∀ q : ℚ, some q ∈ (Audiowaveform.generatePeaks w).peaks →
      ∃ k : ℤ, q = (k : ℚ) / 10000) := by
  constructor
  · intro x hx
    simp only [Ffmpeg.generatePeaks, List.mem_map, List.mem_range] at hx
    obtain ⟨i, _, rfl⟩ := hx
    exact round4_multiple _
  · intro q hq
    simp only [Audiowaveform.generatePeaks, List.mem_map, List.mem_range] at hq
    obtain ⟨k, _, heq⟩ := hq
    rcases hopt : Audiowaveform.jsMax (Audiowaveform.jsAbs w.data[2 * k]?)
        (Audiowaveform.jsAbs w.data[2 * k + 1]?) with _ | y
    · rw [hopt] at heq
      simp [Audiowaveform.jsDiv128, Audiowaveform.jsRound4] at heq
    · rw [hopt] at heq
      simp only [Audiowaveform.jsDiv128, Audiowaveform.jsRound4,
        Option.some.injEq] at heq
      exact heq ▸ round4_multiple _

/-- Claim C10 witness: the amended theorem at a concrete input exhibits the
first ffmpeg-path peak as a multiple of 1/10000. -/
theorem peaks_quantized_witness :
    ((Ffmpeg.generatePeaks (1/100) [(1 : ℚ)/3]).peaks.getD 0 0 * 10000).den = 1 := by
  have h := (peaks_quantized (1/100) [(1 : ℚ)/3] ⟨50, 1, [0, 0]⟩).1
  have hlen : 0 < (Ffmpeg.generatePeaks (1/100) [(1 : ℚ)/3]).peaks.length := by
    rw [ffmpeg_peaks_length]
    norm_num [Ffmpeg.PEAKS_PER_SECOND]
  rw [List.getD_eq_getElem _ _ hlen]
  obtain ⟨k, hk⟩ := h _ (List.getElem_mem hlen)
  rw [hk]
  rw [div_mul_cancel₀ _ (by norm_num : (10000 : ℚ) ≠ 0)]
  exact Rat.den_intCast k

/-- Claim C5: for a non-public audio with no session, the peaks route
returns 401 when `REQUIRE_AUTH_FOR_PUBLIC_CONTENT` is set and 403 when it is
not (never reaching the 200 path); and a request by the owning identity or
for a public audio (with a session whenever the flag demands one) always
passes the access check. -/
theorem peaks_access_policy (flag : Bool) (sess : Option (Option String))
    (pub : Bool) (cid : String) :
    (sess = none → pub = false →
      accessHttpStatus (peaksAccessCheck flag sess pub cid) =
        some (if flag then 401 else 403)) ∧
    ((pub = true ∨ sess.bind (fun u => u) = some cid) →
      (flag = true → sess ≠ none) →
      peaksAccessCheck flag sess pub cid = .granted) := by
  constructor
  · rintro rfl rfl
    cases flag <;> simp [peaksAccessCheck, accessHttpStatus]
  · intro hacc hflag
    have h1 : (flag && (sess.isNone : Bool)) = false := by
      cases flag
      · rfl
      · have hne := hflag rfl
        cases sess
        · exact absurd rfl hne
        · rfl
    have h2 : (pub || decide (sess.bind (fun u => u) = some cid)) = true := by
      rcases hacc with h | h
      · rw [h]
        rfl
      · simp [h]
    simp [peaksAccessCheck, h1, h2]

/-- Claim C5 witness: applying the theorem with the flag set to an anonymous
request for a private audio yields 401, and to an owner request (flag off)
yields access. -/
theorem peaks_access_policy_witness :
    accessHttpStatus (peaksAccessCheck true none false "owner") = some 401 ∧
    peaksAccessCheck false (some (some "owner")) false "owner" = .granted := by
  constructor
  · have h := (peaks_access_policy true none false "owner").1 rfl rfl
    simpa using h
  · exact (peaks_access_policy false (some (some "owner")) false "owner").2
      (Or.inr rfl) (fun h => by simp at h)

/-- Claim C6: for any upload request that passes validation, if the CBR
re-encode step or the peak-generation step throws (or both), the flow still
creates the database record and responds with `success: true` and the new
id; the failures only append console warnings. -/
theorem upload_nonfatal_aux_failures (req : UploadRequest)
    (hvalid : validateUpload req = none) (newId : String)
    (reencodeThrows peaksThrows : Bool) :
    uploadPOST req reencodeThrows peaksThrows false newId =
      (.successResp newId, true,
        (if reencodeThrows then ["CBR re-encode failed (non-fatal)"] else []) ++
        (if peaksThrows then ["Peak generation failed (non-fatal)"] else [])) := by
  unfold uploadPOST
  rw [hvalid]
  rfl

/-- Claim C6 witness: a concrete valid request with both auxiliary steps
throwing still succeeds with the new id; both warnings are logged. -/
theorem upload_nonfatal_aux_failures_witness :
    uploadPOST ⟨some "user1", some "My audio", some ⟨"song.mp3", 1000⟩⟩
        true true false "id-1" =
      (.successResp "id-1", true,
        ["CBR re-encode failed (non-fatal)", "Peak generation failed (non-fatal)"]) := by
  have h := upload_nonfatal_aux_failures
    ⟨some "user1", some "My audio", some ⟨"song.mp3", 1000⟩⟩ (by decide) "id-1"
    true true
  simpa using h

/-- Concatenation property of the last-separator split. -/
lemma lastSegSplit_append (sep : Char) (l : List Char) :
    (lastSegSplit sep l).1 ++ (lastSegSplit sep l).2 = l := by
  unfold lastSegSplit
  rw [← List.reverse_append, List.takeWhile_append_dropWhile, List.reverse_reverse]

/-- The name/extension split preserves total length. -/
lemma extSplit_length (base : List Char) :
    (extSplit base).1.length + (extSplit base).2.length = base.length := by
  have h := congrArg List.length
    (List.takeWhile_append_dropWhile (p := (· ≠ '.')) (l := base.reverse))
  rw [List.length_append, List.length_reverse] at h
  unfold extSplit
  split_ifs with h1 h2
  · simp
  · simp
  · have hlen : (base.reverse.dropWhile (· ≠ '.')).reverse.length ≠ 0 := by
      intro h0
      exact h1 (List.length_eq_zero.1 h0)
    simp only [List.length_dropLast, List.length_cons, List.length_reverse] at *
    omega

/-- The sibling temporary path is never the original path (it is four
characters longer). -/
lemma tempPathOf_ne (p : String) : tempPathOf p ≠ p := by
  intro h
  have hdata : (tempPathOf p).data = p.data := congrArg String.data h
  have hlen := congrArg List.length hdata
  have hconc := congrArg List.length (lastSegSplit_append '/' p.data)
  rw [List.length_append] at hconc
  have hext := extSplit_length (lastSegSplit '/' p.data).2
  have hmk : (tempPathOf p).data =
      (lastSegSplit '/' p.data).1 ++ (extSplit (lastSegSplit '/' p.data).2).1 ++
        "-cbr".data ++ (extSplit (lastSegSplit '/' p.data).2).2 := rfl
  rw [hmk] at hlen
  simp only [List.length_append, List.length_cons, List.length_nil] at hlen
  omega

/-- Claim C7: `replaceWithCbrMp3` performs exactly the step sequence
re-encode to the sibling temp path, unlink the original, read the temp
bytes, write them to the original path, unlink the temp; on success the
original path holds the re-encoded bytes, the temp file is gone and no
other path changes.  When the re-encode invocation fails the function
raises immediately - before the unlink step - leaving the filesystem (in
particular the original file) unchanged.  The temp path always differs
from the original path. -/
theorem replaceWithCbr_steps (fs : FS) (filePath : String) :
    (replaceWithCbrMp3 fs filePath none =
      (.error "ffmpeg re-encode failed", fs,
        [.reencode filePath (tempPathOf filePath)])) ∧
    (∀ b : Bytes,
      (replaceWithCbrMp3 fs filePath (some b)).1 = .ok () ∧
      (replaceWithCbrMp3 fs filePath (some b)).2.2 =
        [.reencode filePath (tempPathOf filePath), .unlink filePath,
         .readF (tempPathOf filePath), .writeF filePath,
         .unlink (tempPathOf filePath)] ∧
      (replaceWithCbrMp3 fs filePath (some b)).2.1 filePath = some b ∧
      (replaceWithCbrMp3 fs filePath (some b)).2.1 (tempPathOf filePath) = none ∧
      (∀ p, p ≠ filePath → p ≠ tempPathOf filePath →
        (replaceWithCbrMp3 fs filePath (some b)).2.1 p = fs p)) ∧
    tempPathOf filePath ≠ filePath := by
  have hne : tempPathOf filePath ≠ filePath := tempPathOf_ne filePath
  have hne' : filePath ≠ tempPathOf filePath := fun h => hne h.symm
  refine ⟨rfl, ?_, hne⟩
  intro b
  have hread : fsSet (fsSet fs (tempPathOf filePath) (some b)) filePath none
      (tempPathOf filePath) = some b := by
    unfold fsSet
    rw [if_neg hne, if_pos rfl]
  have hred : replaceWithCbrMp3 fs filePath (some b) =
      (.ok (),
        fsSet (fsSet (fsSet (fsSet fs (tempPathOf filePath) (some b))
          filePath none) filePath (some b)) (tempPathOf filePath) none,
        [.reencode filePath (tempPathOf filePath), .unlink filePath,
         .readF (tempPathOf filePath), .writeF filePath,
         .unlink (tempPathOf filePath)]) := by
    simp only [replaceWithCbrMp3]
    rw [hread]
  refine ⟨by rw [hred], by rw [hred], ?_, ?_, ?_⟩
  · rw [hred]
    show fsSet _ (tempPathOf filePath) none filePath = some b
    unfold fsSet
    rw [if_neg hne', if_pos rfl]
  · rw [hred]
    show fsSet _ (tempPathOf filePath) none (tempPathOf filePath) = none
    unfold fsSet
    rw [if_pos rfl]
  · intro p hp1 hp2
    rw [hred]
    show fsSet _ (tempPathOf filePath) none p = fs p
    unfold fsSet
    rw [if_neg hp2, if_neg hp1, if_neg hp1, if_neg hp2]

/-- Claim C7 witness: the theorem applied to a concrete filesystem and path:
after a successful re-encode of `/data/uploads/a.mp3` the original path
holds the encoded bytes and the temp path `/data/uploads/a-cbr.mp3` is
gone. -/
theorem replaceWithCbr_steps_witness :
    (replaceWithCbrMp3 (fun _ => none) "/data/uploads/a.mp3"
      (some [1, 2, 3])).2.1 "/data/uploads/a.mp3" = some [1, 2, 3] ∧
    (replaceWithCbrMp3 (fun _ => none) "/data/uploads/a.mp3" none).2.1 =
      (fun _ => (none : Option Bytes)) := by
  have h := replaceWithCbr_steps (fun _ => none) "/data/uploads/a.mp3"
  refine ⟨((h.2.1 [1, 2, 3]).2.2).1, ?_⟩
  rw [show (replaceWithCbrMp3 (fun _ => none) "/data/uploads/a.mp3" none).2.1 =
    (fun _ => (none : Option Bytes)) from by rw [h.1]]

/-- Claim C8, counterexample to the claim as stated: in production mode a
GET request to the auth-flow path `/api/auth/signin.css` is classified by
its static file extension - the listener checks audio and static
classification before the auth check - and the static branch stores a 200
response in the static cache partition. -/
theorem sw_auth_priority_ce :
    isAuthRequest ⟨"GET", "https:", "/api/auth/signin.css", none⟩ = true ∧
    classify true ⟨"GET", "https:", "/api/auth/signin.css", none⟩ =
      .staticCacheFirst ∧
    cacheWrites
      (classify true ⟨"GET", "https:", "/api/auth/signin.css", none⟩)
      false (some 200) = [STATIC_CACHE_NAME] := by
  refine ⟨by decide, by decide, by decide⟩

/-- Claim C8 (amended): in production mode, a GET http(s) request on an
auth-flow path (`/api/auth/` prefix) is forwarded live and never stored in
any cache partition, provided it is not first captured by the audio
classification (audio API pattern, audio file extension, or an `audio/`
accept header) or by a static file extension - those two checks precede the
auth check in the listener. -/
theorem sw_auth_never_cached (r : SWRequest)
    (hm : r.method = "GET")
    (hp : hasFront r.protocol.data "http".data = true)
    (ha : isAuthRequest r = true)
    (hau : isAudioRequest r = false)
    (hst : isStaticAsset r = false) :
    classify true r = .authNetworkOnly ∧
    (∀ cacheHit netStatus, cacheWrites (classify true r) cacheHit netStatus = []) := by
  have hcl : classify true r = .authNetworkOnly := by
    unfold classify
    rw [hm]
    simp [hp, ha, hau, hst]
  exact ⟨hcl, fun _ _ => by rw [hcl]; rfl⟩

/-- Claim C8 witness: a plain auth-flow request is classified
auth-network-only and writes no cache. -/
theorem sw_auth_never_cached_witness :
    classify true ⟨"GET", "https:", "/api/auth/session", none⟩ =
      .authNetworkOnly ∧
    cacheWrites (classify true ⟨"GET", "https:", "/api/auth/session", none⟩)
      false (some 200) = [] := by
  have h := sw_auth_never_cached ⟨"GET", "https:", "/api/auth/session", none⟩
    rfl (by decide) (by decide) (by decide) (by decide)
  exact ⟨h.1, h.2 false (some 200)⟩

/-- Claim C9: the service worker fetch handler intercepts only GET requests
over http(s): any request with a different method or a non-http(s) scheme
is passed through untouched (the handler returns before calling
`respondWith`), and a passed-through request never writes any cache
partition - in either production or development mode. -/
theorem sw_nonget_passthrough (isProd : Bool) (r : SWRequest)
    (h : ¬ r.method = "GET" ∨ hasFront r.protocol.data "http".data = false) :
    classify isProd r = .passThrough ∧
    (∀ cacheHit netStatus, cacheWrites (classify isProd r) cacheHit netStatus = []) := by
  have hcl : classify isProd r = .passThrough := by
    unfold classify
    rcases h with h | h
    · simp [h]
    · by_cases hm : r.method = "GET"
      · rw [hm]
        simp [h]
      · simp [hm]
  exact ⟨hcl, fun _ _ => by rw [hcl]; rfl⟩

/-- Claim C9 witness: a POST request passes through and writes nothing. -/
theorem sw_nonget_passthrough_witness :
    classify true ⟨"POST", "https:", "/api/upload", none⟩ = .passThrough ∧
    cacheWrites (classify true ⟨"POST", "https:", "/api/upload", none⟩)
      false (some 200) = [] := by
  have h := sw_nonget_passthrough true ⟨"POST", "https:", "/api/upload", none⟩
    (Or.inl (by decide))
  exact ⟨h.1, h.2 false (some 200)⟩

end AudioMarker
